import Mathlib

/-!
Verification development for `examples/simple_event_writer.py` of the
ctapipe repository.  The orchestration logic of the script
(`SimpleEventWriter.setup`, `.start`, `.finish`) is embedded shallowly as
pure Lean functions; the external collaborators that the script only calls
(EventSource, CameraCalibrator, tailcuts_clean, hillas_parameters,
HDF5TableWriter, the Tool lifecycle) are not part of the repository source
and are modelled from the specification where a claim depends on them.
Pixel intensities are modelled as rationals; none of the claims under
study depends on floating-point rounding.
-/

/-- Static per-telescope pixel layout descriptor (spec section 3:
CameraGeometry).  Pixels are indexed 0 .. n-1; `pix_x`/`pix_y` give their
coordinates and `neighbor_matrix i j` says whether pixels i and j are
adjacent.  The class itself lives in the external library; only the fields
the script reads (`camera_name`, and what cleaning and parametrisation
need) are modelled. -/
structure CameraGeometry where
  camera_name : String
  pix_x : List ℚ
  pix_y : List ℚ
  neighbor_matrix : Nat → Nat → Bool

/-- Raw per-telescope data attached to an event (`event.r0`).  The script
treats it as an opaque record to be written out; a concrete payload field
makes the model executable. -/
structure R0Container where
  payload : List Int
deriving DecidableEq, Repr

/-- Simulation-truth metadata attached to an event (`event.mc`), treated
as an opaque record by the script. -/
structure MCContainer where
  energy : ℚ
deriving DecidableEq, Repr

/-- The dl0 container of an event; the script reads only
`event.dl0.tels_with_data`, the list of telescope ids with data. -/
structure DL0Container where
  tels_with_data : List Nat
deriving DecidableEq, Repr

/-- Per-telescope calibrated data (`event.dl1.tel[tel_id]`); the script
reads only the calibrated image array. -/
structure DL1TelContainer where
  image : List ℚ
deriving DecidableEq, Repr

/-- A single recorded trigger (spec section 3: Event).  `dl1_tel` models
the dictionary `event.dl1.tel`. -/
structure Event where
  r0 : R0Container
  mc : MCContainer
  dl0 : DL0Container
  dl1_tel : Nat → DL1TelContainer

/-- The camera of a telescope description; the script reads
`subarray.tel[tel_id].camera.geometry`. -/
structure CameraDescription where
  geometry : CameraGeometry

/-- One telescope of the subarray description. -/
structure TelescopeDescription where
  camera : CameraDescription

/-- The subarray description exposed by the event source; `tel` models the
dictionary from telescope id to telescope description. -/
structure SubarrayDescription where
  tel : Nat → TelescopeDescription

/-- Modelled from the spec: `tailcuts_clean` is an external pure cleaning
function "operating on a per-telescope geometry descriptor and
pixel-intensity array, producing a boolean mask" with "one boolean ...
value per pixel index" (spec sections 2 and 3).  Pixels at or above the
picture threshold are kept; pixels at or above the boundary threshold are
kept when adjacent to a picture pixel.  The algorithm's details are
out of scope for the spec; what matters for the claims is that it is pure,
uses exactly the two thresholds, and returns one boolean per pixel. -/
def tailcuts_clean (geom : CameraGeometry) (image : List ℚ)
    (picture_thresh boundary_thresh : ℚ) : List Bool :=
  let picture : Nat → Bool := fun i => decide (picture_thresh ≤ image.getD i 0)
  (List.range image.length).map fun i =>
    picture i ||
      (decide (boundary_thresh ≤ image.getD i 0) &&
        (List.range image.length).any fun j => geom.neighbor_matrix i j && picture j)

/-- The cleaned image built in `start` (lines 86-87 of the script):
`cleaned = image.copy()` followed by the masked assignment
`cleaned[~mask] = 0`, i.e. elementwise: keep the pixel when the mask holds
there, zero it otherwise. -/
def cleanedImage (image : List ℚ) (mask : List Bool) : List ℚ :=
  (List.range image.length).map fun i =>
    if mask.getD i false then image.getD i 0 else 0

/-- The fixed-schema record of geometric image moments (spec glossary:
"centroid, length, width, orientation, intensity").  Only the fields no
claim is agnostic about are modelled concretely. -/
structure HillasParameters where
  intensity : ℚ
  x : ℚ
  y : ℚ
deriving DecidableEq, Repr

/-- Modelled from the spec: `hillas_parameters` is an external pure
function computing "a standard set of geometric moments (centroid, length,
width, orientation, intensity) describing a cleaned camera image" (spec
glossary).  Intensity is the total charge and the centroid the
intensity-weighted mean pixel position; length, width and orientation
would require real square roots and are omitted since no claim concerns
their values, only that the record is computed from the cleaned image. -/
def hillas_parameters (geom : CameraGeometry) (image : List ℚ) : HillasParameters :=
  let size := image.sum
  let wx := ((image.zip geom.pix_x).map fun p => p.1 * p.2).sum
  let wy := ((image.zip geom.pix_y).map fun p => p.1 * p.2).sum
  { intensity := size, x := wx / size, y := wy / size }

/-- One of the records passed to `writer.write` in the list
`[event.r0, event.mc, params]`. -/
inductive SubRecord where
  | r0 : R0Container → SubRecord
  | mc : MCContainer → SubRecord
  | params : HillasParameters → SubRecord
deriving DecidableEq, Repr

/-- One row appended by `writer.write(table_name, containers)`:
the table key (the camera name in this script) and the records merged
into the row. -/
structure Row where
  table_key : String
  containers : List SubRecord
deriving DecidableEq, Repr

/-- State of the `HDF5TableWriter` component: its configuration, the rows
written so far, and whether it has been closed. -/
structure HDF5TableWriter where
  filename : String
  group_name : String
  overwrite : Bool
  rows : List Row
  closed : Bool
deriving DecidableEq, Repr

/-- Modelled from the spec: `writer.write(key, containers)` appends one
row into the named table of the output group ("appends heterogeneous
records into named output groups", spec section 2). -/
def HDF5TableWriter.write (w : HDF5TableWriter) (key : String)
    (cs : List SubRecord) : HDF5TableWriter :=
  { w with rows := w.rows ++ [{ table_key := key, containers := cs }] }

/-- `writer.close()` marks the scoped resource as released. -/
def HDF5TableWriter.close (w : HDF5TableWriter) : HDF5TableWriter :=
  { w with closed := true }

/-- Modelled from the spec: constructing an `HDF5TableWriter` with
`overwrite=True` "creates/overwrites the output file" (spec section 4.1),
so prior file contents are discarded; without overwrite the prior rows
would remain. -/
def HDF5TableWriter.openFile (filename group_name : String) (overwrite : Bool)
    (prior : List Row) : HDF5TableWriter :=
  { filename := filename, group_name := group_name, overwrite := overwrite,
    rows := if overwrite then [] else prior, closed := false }

/-- The image-cleaning step of the inner loop (`start`, lines 84-87):
read the calibrated image from the dl1 container, compute the tailcuts
mask with the literal thresholds 10 and 5, and build the cleaned image as
a zeroed copy.  The source writes only into the fresh copy `cleaned`, so
the dl1 container is returned exactly as it was received; returning it
makes this frame condition part of the embedding. -/
def imageCleaningStep (geom : CameraGeometry) (dl1_tel : DL1TelContainer) :
    DL1TelContainer × List Bool × List ℚ :=
  let image := dl1_tel.image
  let mask := tailcuts_clean geom image 10 5
  let cleaned := cleanedImage image mask
  (dl1_tel, mask, cleaned)

/-- The row written for one telescope of one event, exactly as built by
lines 81-93 of the script but with the two cleaning thresholds abstracted
into parameters: geometry looked up by telescope id, tailcuts mask with
thresholds `pt`/`bt`, zeroed copy, Hillas parametrisation of the cleaned
image, row keyed by the camera name with the three sub-records r0, mc,
params in that order. -/
def mkRowWith (pt bt : ℚ) (subarray : SubarrayDescription) (event : Event)
    (tel_id : Nat) : Row :=
  let geom := (subarray.tel tel_id).camera.geometry
  let image := (event.dl1_tel tel_id).image
  let mask := tailcuts_clean geom image pt bt
  let cleaned := cleanedImage image mask
  let params := hillas_parameters geom cleaned
  { table_key := geom.camera_name,
    containers := [SubRecord.r0 event.r0, SubRecord.mc event.mc,
                   SubRecord.params params] }

/-- The body of the inner loop of `start` (lines 79-93) for one telescope
id: look up the geometry and the dl1 container, clean the image with the
literal thresholds `picture_thresh=10, boundary_thresh=5` via
`imageCleaningStep`, parametrise, and write one row. -/
def processTelescope (subarray : SubarrayDescription) (event : Event)
    (writer : HDF5TableWriter) (tel_id : Nat) : HDF5TableWriter :=
  let geom := (subarray.tel tel_id).camera.geometry
  let dl1_tel := event.dl1_tel tel_id
  let step := imageCleaningStep geom dl1_tel
  let params := hillas_parameters geom step.2.2
  writer.write geom.camera_name
    [SubRecord.r0 event.r0, SubRecord.mc event.mc, SubRecord.params params]

/-- The body of the outer loop of `start` (lines 76-93) for one event:
apply the calibrator (which mutates the event in place, modelled as an
event-to-event function), then fold the inner loop over
`event.dl0.tels_with_data` of the calibrated event. -/
def processEvent (calibrator : Event → Event) (subarray : SubarrayDescription)
    (writer : HDF5TableWriter) (event : Event) : HDF5TableWriter :=
  let event := calibrator event
  event.dl0.tels_with_data.foldl (processTelescope subarray event) writer

/-- The `start` method (lines 66-93): iterate the events produced by the
event source, processing each one in turn.  The event source is modelled
as the finite list of events it yields (spec section 2: "a finite ...
sequence of Event records"). -/
def start (calibrator : Event → Event) (subarray : SubarrayDescription)
    (events : List Event) (writer : HDF5TableWriter) : HDF5TableWriter :=
  events.foldl (processEvent calibrator subarray) writer

/-- The writer as configured by `setup` (lines 60-64):
`HDF5TableWriter(filename=self.outfile, group_name="image_infos",
overwrite=True)`, opened over whatever the output path held before. -/
def setupWriter (outfile : String) (prior : List Row) : HDF5TableWriter :=
  HDF5TableWriter.openFile outfile "image_infos" true prior

/-- The rows in the output file after one complete run over `events`:
setup opens the writer with `overwrite=True` over the prior contents of
the output path, `start` writes the rows. -/
def runOutput (calibrator : Event → Event) (subarray : SubarrayDescription)
    (events : List Event) (outfile : String) (prior : List Row) : List Row :=
  (start calibrator subarray events (setupWriter outfile prior)).rows

/-- Modelled from the spec: the collaborators are fallible ("any failure
in opening the source, calibrating, cleaning, or writing propagates",
spec section 7).  For studying error propagation through the orchestration
each collaborator call is a function that may return an error. -/
structure FallibleCollaborators where
  calibrate : Event → Except String Event
  clean : CameraGeometry → List ℚ → ℚ → ℚ → Except String (List Bool)
  parametrize : CameraGeometry → List ℚ → Except String HillasParameters
  writeRow : HDF5TableWriter → String → List SubRecord → Except String HDF5TableWriter

/-- The inner-loop body of `start` with fallible collaborators.  The
source has no try/except around any of these calls, so each failure is
propagated by the monadic bind, never handled. -/
def processTelescopeE (c : FallibleCollaborators) (subarray : SubarrayDescription)
    (event : Event) (writer : HDF5TableWriter) (tel_id : Nat) :
    Except String HDF5TableWriter := do
  let geom := (subarray.tel tel_id).camera.geometry
  let image := (event.dl1_tel tel_id).image
  let mask ← c.clean geom image 10 5
  let cleaned := cleanedImage image mask
  let params ← c.parametrize geom cleaned
  c.writeRow writer geom.camera_name
    [SubRecord.r0 event.r0, SubRecord.mc event.mc, SubRecord.params params]

/-- The outer-loop body of `start` with fallible collaborators: a failed
calibration, or a failure in any telescope of the event, aborts the
event's processing with that error. -/
def processEventE (c : FallibleCollaborators) (subarray : SubarrayDescription)
    (writer : HDF5TableWriter) (event : Event) : Except String HDF5TableWriter := do
  let event ← c.calibrate event
  event.dl0.tels_with_data.foldlM (processTelescopeE c subarray event) writer

/-- `start` with fallible collaborators: the loop over events is a
monadic fold; there is no catch, retry or skip in the orchestration, so
the first failing step determines the result of the whole run. -/
def startE (c : FallibleCollaborators) (subarray : SubarrayDescription)
    (events : List Event) (writer : HDF5TableWriter) : Except String HDF5TableWriter :=
  events.foldlM (processEventE c subarray) writer

/-- Run the event loop keeping the writer state at the moment of the
first failure: returns the error (if any) together with the writer as it
stood when the loop terminated, normally or early. -/
def startWithState (c : FallibleCollaborators) (subarray : SubarrayDescription) :
    List Event → HDF5TableWriter → Option String × HDF5TableWriter
  | [], w => (none, w)
  | e :: es, w =>
    match processEventE c subarray w e with
    | Except.ok w' => startWithState c subarray es w'
    | Except.error msg => (some msg, w)

/-- Modelled from the spec: the Tool run lifecycle.  "The only scoped
resource is the output table writer, which must be released (closed) on
both normal completion and any early termination path" (spec section 5);
`finish` (lines 95-97 of the script) performs the close.  The run opens
the writer as `setup` does, executes the event loop, and the cleanup
closes the writer whether the loop completed normally or terminated
early with an error, which is reported alongside the final writer
state. -/
def runTool (c : FallibleCollaborators) (subarray : SubarrayDescription)
    (events : List Event) (outfile : String) (prior : List Row) :
    Option String × HDF5TableWriter :=
  let w := setupWriter outfile prior
  let res := startWithState c subarray events w
  (res.1, res.2.close)

/-- Python's implicit bool-to-int coercion (True is 1, False is 0). -/
def pyIntOfBool (b : Bool) : Int := if b then 1 else 0

/-- Python's bitwise complement on integers: `~n = -n - 1`. -/
def pyInvert (n : Int) : Int := -n - 1

/-- Python's truthiness of an integer: nonzero is truthy. -/
def pyTruthy (n : Int) : Bool := decide (n ≠ 0)

/-- The argument the script passes to tqdm at line 74:
`disable=~self.progress`, Python's bitwise complement of the boolean
trait. -/
def tqdmDisableArg (progress : Bool) : Int := pyInvert (pyIntOfBool progress)

/-- Modelled from the spec/tqdm interface: the progress bar is displayed
exactly when the `disable` argument is falsy ("emits progress
indication", spec section 4.1, controlled by the progress flag). -/
def progressBarShown (progress : Bool) : Bool := !pyTruthy (tqdmDisableArg progress)

theorem tailcuts_clean_length (geom : CameraGeometry) (image : List ℚ)
    (pt bt : ℚ) : (tailcuts_clean geom image pt bt).length = image.length := by
  simp [tailcuts_clean]

theorem cleanedImage_length (image : List ℚ) (mask : List Bool) :
    (cleanedImage image mask).length = image.length := by
  simp [cleanedImage]

theorem cleanedImage_getD (image : List ℚ) (mask : List Bool) (i : Nat)
    (h : i < image.length) :
    (cleanedImage image mask).getD i 0
      = if mask.getD i false then image.getD i 0 else 0 := by
  rw [List.getD_eq_getElem _ _ (by rw [cleanedImage_length]; exact h)]
  simp [cleanedImage]

theorem processTelescope_rows (sub : SubarrayDescription) (e : Event)
    (w : HDF5TableWriter) (t : Nat) :
    (processTelescope sub e w t).rows = w.rows ++ [mkRowWith 10 5 sub e t] := rfl

theorem processTelescope_group_name (sub : SubarrayDescription) (e : Event)
    (w : HDF5TableWriter) (t : Nat) :
    (processTelescope sub e w t).group_name = w.group_name := rfl

theorem foldl_processTelescope_rows (sub : SubarrayDescription) (e : Event)
    (tels : List Nat) : ∀ w : HDF5TableWriter,
    (tels.foldl (processTelescope sub e) w).rows
      = w.rows ++ tels.map (mkRowWith 10 5 sub e) := by
  induction tels with
  | nil => intro w; simp
  | cons t ts ih =>
    intro w
    rw [List.foldl_cons, ih, List.map_cons, processTelescope_rows]
    simp

theorem start_rows (cal : Event → Event) (sub : SubarrayDescription)
    (events : List Event) : ∀ w : HDF5TableWriter,
    (start cal sub events w).rows
      = w.rows ++ events.flatMap
          (fun e => ((cal e).dl0.tels_with_data).map (mkRowWith 10 5 sub (cal e))) := by
  induction events with
  | nil => intro w; simp [start]
  | cons e es ih =>
    intro w
    show (start cal sub es (processEvent cal sub w e)).rows = _
    rw [ih, List.flatMap_cons]
    show ((((cal e).dl0.tels_with_data).foldl
        (processTelescope sub (cal e)) w).rows) ++ _ = _
    rw [foldl_processTelescope_rows]
    simp

theorem foldl_processTelescope_group_name (sub : SubarrayDescription) (e : Event)
    (tels : List Nat) : ∀ w : HDF5TableWriter,
    (tels.foldl (processTelescope sub e) w).group_name = w.group_name := by
  induction tels with
  | nil => intro w; rfl
  | cons t ts ih => intro w; rw [List.foldl_cons, ih, processTelescope_group_name]

theorem start_group_name (cal : Event → Event) (sub : SubarrayDescription)
    (events : List Event) : ∀ w : HDF5TableWriter,
    (start cal sub events w).group_name = w.group_name := by
  induction events with
  | nil => intro w; rfl
  | cons e es ih =>
    intro w
    show (start cal sub es (processEvent cal sub w e)).group_name = _
    rw [ih]
    exact foldl_processTelescope_group_name sub (cal e) _ w

/-- A small concrete camera geometry: three pixels in a row, consecutive
pixels adjacent. -/
def geom0 : CameraGeometry :=
  { camera_name := "LSTCam", pix_x := [0, 1, 2], pix_y := [0, 0, 1],
    neighbor_matrix := fun i j => decide (i + 1 = j) || decide (j + 1 = i) }

/-- A concrete subarray description where every telescope carries
`geom0`. -/
def sub0 : SubarrayDescription :=
  { tel := fun _ => { camera := { geometry := geom0 } } }

/-- A concrete event with telescope 1 active; its image has one picture
pixel (12), one boundary pixel (6) and one pixel below both thresholds
(1). -/
def ev0 : Event :=
  { r0 := { payload := [3, 4] }, mc := { energy := 7 },
    dl0 := { tels_with_data := [1] },
    dl1_tel := fun _ => { image := [12, 6, 1] } }

/-- A concrete calibrator that leaves the event unchanged. -/
def cal0 : Event → Event := id

/-- C1: for a run over a fixed input dataset, the number of rows written
to the output equals the sum, over all processed events, of the number of
telescopes with data in that event: exactly one `writer.write` call per
(event, telescope in `event.dl0.tels_with_data`) pair. -/
theorem output_row_count (cal : Event → Event) (sub : SubarrayDescription)
    (events : List Event) (outfile : String) (prior : List Row) :
    (runOutput cal sub events outfile prior).length
      = (events.map fun e => ((cal e).dl0.tels_with_data).length).sum := by
  simp only [runOutput, start_rows, setupWriter, HDF5TableWriter.openFile,
    if_true, List.nil_append, List.length_flatMap]
  congr 1
  apply List.map_congr_left
  intro e _
  simp [Function.comp, List.length_map]

/-- C4: the claim that the progress flag controls whether the progress
bar is displayed fails on the code: line 74 passes `disable=~self.progress`
where `~` is the bitwise complement of a Python bool (-2 for True, -1 for
False), both truthy, so the bar is disabled for either value of the
flag. -/
theorem progress_flag_has_no_effect :
    progressBarShown true = false ∧ progressBarShown false = false := by decide

/-- C5: the output table writer, the only scoped resource, is closed on
normal completion and on every early-termination path of the run: whatever
error (if any) the event loop stops with, the writer state after the run
is closed. -/
theorem writer_closed_on_all_paths (c : FallibleCollaborators)
    (sub : SubarrayDescription) (events : List Event) (outfile : String)
    (prior : List Row) :
    (runTool c sub events outfile prior).2.closed = true := by
  simp [runTool, HDF5TableWriter.close]

/-- C6: re-running the tool with the same input and the same thresholds is
idempotent: because the writer is opened with `overwrite=True`, the output
is independent of the prior contents of the output path, and in particular
a second run over its own output reproduces it exactly. -/
theorem rerun_idempotent (cal : Event → Event) (sub : SubarrayDescription)
    (events : List Event) (outfile : String) (prior : List Row) :
    runOutput cal sub events outfile (runOutput cal sub events outfile prior)
        = runOutput cal sub events outfile prior
      ∧ runOutput cal sub events outfile prior
        = runOutput cal sub events outfile [] :=
  ⟨rfl, rfl⟩

/-- C9: the cleaning mask returned by `tailcuts_clean` and the image array
have identical length (one boolean per pixel index), and so does the
cleaned image, making the masked zeroing well defined for every pixel. -/
theorem mask_matches_image_length (geom : CameraGeometry) (image : List ℚ)
    (pt bt : ℚ) :
    (tailcuts_clean geom image pt bt).length = image.length
      ∧ (cleanedImage image (tailcuts_clean geom image pt bt)).length
          = image.length :=
  ⟨tailcuts_clean_length geom image pt bt,
   cleanedImage_length image (tailcuts_clean geom image pt bt)⟩

/-- C10: the cleaning step operates on a copy of the calibrated image:
the dl1 container is unchanged by the step, and for every pixel index the
cleaned array keeps the original value inside the mask and is zero
outside it. -/
theorem cleaning_operates_on_copy (geom : CameraGeometry)
    (dl1_tel : DL1TelContainer) :
    (imageCleaningStep geom dl1_tel).1 = dl1_tel
      ∧ ∀ i, i < dl1_tel.image.length →
          (imageCleaningStep geom dl1_tel).2.2.getD i 0
            = if (imageCleaningStep geom dl1_tel).2.1.getD i false
              then dl1_tel.image.getD i 0 else 0 := by
  refine ⟨rfl, fun i h => ?_⟩
  exact cleanedImage_getD dl1_tel.image _ i h

/-- Witness for C10 at a concrete geometry and image, pixel index 2. -/
theorem cleaning_operates_on_copy_witness :
    2 < (DL1TelContainer.image { image := [12, 6, 1] }).length
      ∧ (imageCleaningStep geom0 { image := [12, 6, 1] }).1
          = { image := [12, 6, 1] }
      ∧ (imageCleaningStep geom0 { image := [12, 6, 1] }).2.2.getD 2 0
          = if (imageCleaningStep geom0 { image := [12, 6, 1] }).2.1.getD 2 false
            then (DL1TelContainer.image { image := [12, 6, 1] }).getD 2 0 else 0 :=
  ⟨by decide,
   (cleaning_operates_on_copy geom0 { image := [12, 6, 1] }).1,
   (cleaning_operates_on_copy geom0 { image := [12, 6, 1] }).2 2 (by decide)⟩

/-- C2: for every processed telescope image, the cleaned image passed to
the Hillas parametrisation is zero at every pixel outside the cleaning
mask, and the row written by the inner loop carries the Hillas parameters
of that cleaned image, not of the raw image. -/
theorem hillas_computed_on_cleaned_image (sub : SubarrayDescription)
    (event : Event) (tel_id : Nat) (w : HDF5TableWriter) :
    (∀ i, i < ((event.dl1_tel tel_id).image).length →
        (tailcuts_clean (sub.tel tel_id).camera.geometry
          (event.dl1_tel tel_id).image 10 5).getD i false = false →
        (cleanedImage (event.dl1_tel tel_id).image
          (tailcuts_clean (sub.tel tel_id).camera.geometry
            (event.dl1_tel tel_id).image 10 5)).getD i 0 = 0)
      ∧ processTelescope sub event w tel_id
        = w.write ((sub.tel tel_id).camera.geometry).camera_name
            [SubRecord.r0 event.r0, SubRecord.mc event.mc,
             SubRecord.params (hillas_parameters ((sub.tel tel_id).camera.geometry)
               (cleanedImage ((event.dl1_tel tel_id).image)
                 (tailcuts_clean ((sub.tel tel_id).camera.geometry)
                   ((event.dl1_tel tel_id).image) 10 5)))] := by
  constructor
  · intro i hi hm
    rw [cleanedImage_getD _ _ i hi, hm]
    simp
  · rfl

/-- Witness for C2 at a concrete event: pixel 2 of `ev0` is outside the
mask and its cleaned value is zero; the row written for telescope 0
carries the Hillas parameters of the cleaned image. -/
theorem hillas_computed_on_cleaned_image_witness :
    (2 < ((ev0.dl1_tel 0).image).length
      ∧ (tailcuts_clean (sub0.tel 0).camera.geometry
          (ev0.dl1_tel 0).image 10 5).getD 2 false = false
      ∧ (cleanedImage (ev0.dl1_tel 0).image
          (tailcuts_clean (sub0.tel 0).camera.geometry
            (ev0.dl1_tel 0).image 10 5)).getD 2 0 = 0)
      ∧ processTelescope sub0 ev0 (setupWriter "output.h5" []) 0
        = (setupWriter "output.h5" []).write
            ((sub0.tel 0).camera.geometry).camera_name
            [SubRecord.r0 ev0.r0, SubRecord.mc ev0.mc,
             SubRecord.params (hillas_parameters ((sub0.tel 0).camera.geometry)
               (cleanedImage ((ev0.dl1_tel 0).image)
                 (tailcuts_clean ((sub0.tel 0).camera.geometry)
                   ((ev0.dl1_tel 0).image) 10 5)))] :=
  ⟨⟨by decide, by decide,
    (hillas_computed_on_cleaned_image sub0 ev0 0 (setupWriter "output.h5" [])).1
      2 (by decide) (by decide)⟩,
   (hillas_computed_on_cleaned_image sub0 ev0 0 (setupWriter "output.h5" [])).2⟩

/-- C3: every row of the output is built with the one fixed threshold
pair, picture threshold 10 and boundary threshold 5, identical for all
events and telescopes: the constants appear once, outside the
quantification over events and telescopes. -/
theorem fixed_thresholds_all_rows (cal : Event → Event)
    (sub : SubarrayDescription) (events : List Event) (outfile : String)
    (prior : List Row) :
    ∀ row ∈ runOutput cal sub events outfile prior,
      ∃ e ∈ events, ∃ t ∈ ((cal e).dl0.tels_with_data),
        row = mkRowWith 10 5 sub (cal e) t := by
  intro row hrow
  rw [runOutput, start_rows] at hrow
  simp only [setupWriter, HDF5TableWriter.openFile, if_true, List.nil_append,
    List.mem_flatMap, List.mem_map] at hrow
  obtain ⟨e, he, t, ht, rfl⟩ := hrow
  exact ⟨e, he, t, ht, rfl⟩

/-- Witness for C3: the single row of a one-event run is built with
thresholds 10 and 5. -/
theorem fixed_thresholds_all_rows_witness :
    mkRowWith 10 5 sub0 ev0 1 ∈ runOutput cal0 sub0 [ev0] "output.h5" []
      ∧ ∃ e ∈ [ev0], ∃ t ∈ ((cal0 e).dl0.tels_with_data),
          mkRowWith 10 5 sub0 ev0 1 = mkRowWith 10 5 sub0 (cal0 e) t :=
  ⟨by
    rw [show runOutput cal0 sub0 [ev0] "output.h5" []
        = [mkRowWith 10 5 sub0 ev0 1] from rfl]
    exact List.mem_singleton.mpr rfl,
   fixed_thresholds_all_rows cal0 sub0 [ev0] "output.h5" []
     (mkRowWith 10 5 sub0 ev0 1)
     (by
       rw [show runOutput cal0 sub0 [ev0] "output.h5" []
           = [mkRowWith 10 5 sub0 ev0 1] from rfl]
       exact List.mem_singleton.mpr rfl)⟩

/-- C8: the writer configured by setup writes into the single group
"image_infos", and every row it produces is keyed by the camera name of
the telescope's geometry and contains exactly the three sub-records
r0, mc and Hillas parameters, in that order. -/
theorem row_key_group_and_subrecords (cal : Event → Event)
    (sub : SubarrayDescription) (events : List Event) (outfile : String)
    (prior : List Row) :
    (start cal sub events (setupWriter outfile prior)).group_name = "image_infos"
      ∧ ∀ row ∈ (start cal sub events (setupWriter outfile prior)).rows,
          ∃ e ∈ events, ∃ t ∈ ((cal e).dl0.tels_with_data),
            row.table_key = ((sub.tel t).camera.geometry).camera_name
              ∧ row.containers
                = [SubRecord.r0 (cal e).r0, SubRecord.mc (cal e).mc,
                   SubRecord.params (hillas_parameters ((sub.tel t).camera.geometry)
                     (cleanedImage ((cal e).dl1_tel t).image
                       (tailcuts_clean ((sub.tel t).camera.geometry)
                         ((cal e).dl1_tel t).image 10 5)))] := by
  constructor
  · rw [start_group_name]; rfl
  · intro row hrow
    rw [start_rows] at hrow
    simp only [setupWriter, HDF5TableWriter.openFile, if_true, List.nil_append,
      List.mem_flatMap, List.mem_map] at hrow
    obtain ⟨e, he, t, ht, rfl⟩ := hrow
    exact ⟨e, he, t, ht, rfl, rfl⟩

/-- Witness for C8: in a one-event run the group is "image_infos" and the
single row is keyed by the camera name with the three sub-records in
order. -/
theorem row_key_group_and_subrecords_witness :
    (start cal0 sub0 [ev0] (setupWriter "output.h5" [])).group_name = "image_infos"
      ∧ mkRowWith 10 5 sub0 ev0 1
          ∈ (start cal0 sub0 [ev0] (setupWriter "output.h5" [])).rows
      ∧ ∃ e ∈ [ev0], ∃ t ∈ ((cal0 e).dl0.tels_with_data),
          (mkRowWith 10 5 sub0 ev0 1).table_key
              = ((sub0.tel t).camera.geometry).camera_name
            ∧ (mkRowWith 10 5 sub0 ev0 1).containers
              = [SubRecord.r0 (cal0 e).r0, SubRecord.mc (cal0 e).mc,
                 SubRecord.params (hillas_parameters ((sub0.tel t).camera.geometry)
                   (cleanedImage ((cal0 e).dl1_tel t).image
                     (tailcuts_clean ((sub0.tel t).camera.geometry)
                       ((cal0 e).dl1_tel t).image 10 5)))] :=
  ⟨(row_key_group_and_subrecords cal0 sub0 [ev0] "output.h5" []).1,
   by
     rw [show (start cal0 sub0 [ev0] (setupWriter "output.h5" [])).rows
         = [mkRowWith 10 5 sub0 ev0 1] from rfl]
     exact List.mem_singleton.mpr rfl,
   (row_key_group_and_subrecords cal0 sub0 [ev0] "output.h5" []).2
     (mkRowWith 10 5 sub0 ev0 1)
     (by
       rw [show (start cal0 sub0 [ev0] (setupWriter "output.h5" [])).rows
           = [mkRowWith 10 5 sub0 ev0 1] from rfl]
       exact List.mem_singleton.mpr rfl)⟩

/-- C7: no error is locally recovered: if the loop reaches an event whose
processing (calibration, cleaning, parametrisation or writing) fails, the
error propagates out of the event loop and the run terminates with it,
regardless of how many events remain. -/
theorem errors_propagate (c : FallibleCollaborators) (sub : SubarrayDescription)
    (pre : List Event) (e : Event) (post : List Event) (w w' : HDF5TableWriter)
    (msg : String) (h1 : startE c sub pre w = Except.ok w')
    (h2 : processEventE c sub w' e = Except.error msg) :
    startE c sub (pre ++ e :: post) w = Except.error msg := by
  have happ : startE c sub (pre ++ e :: post) w
      = startE c sub pre w >>= fun w2 => startE c sub (e :: post) w2 :=
    List.foldlM_append _ _ _ _
  rw [happ, h1]
  show startE c sub (e :: post) w' = Except.error msg
  rw [startE, List.foldlM_cons, h2]
  rfl

/-- Concrete fallible collaborators whose calibration fails exactly on
events without telescope data, and which otherwise behave like the pure
model. -/
def failingCalibCollab : FallibleCollaborators :=
  { calibrate := fun e =>
      if e.dl0.tels_with_data.isEmpty then Except.error "No R1 data available"
      else Except.ok e,
    clean := fun g img pt bt => Except.ok (tailcuts_clean g img pt bt),
    parametrize := fun g img => Except.ok (hillas_parameters g img),
    writeRow := fun w k cs => Except.ok (w.write k cs) }

/-- A concrete event on which `failingCalibCollab` fails to calibrate. -/
def evBad : Event :=
  { r0 := { payload := [] }, mc := { energy := 0 },
    dl0 := { tels_with_data := [] },
    dl1_tel := fun _ => { image := [] } }

/-- The freshly opened writer of a concrete run. -/
def w0c : HDF5TableWriter := setupWriter "output.h5" []

/-- The writer after the first (successful) event of a concrete run. -/
def w1c : HDF5TableWriter := processTelescope sub0 ev0 w0c 1

/-- Witness for C7: a run whose second event fails to calibrate
terminates with that calibration error. -/
theorem errors_propagate_witness :
    startE failingCalibCollab sub0 [ev0] w0c = Except.ok w1c
      ∧ processEventE failingCalibCollab sub0 w1c evBad
          = Except.error "No R1 data available"
      ∧ startE failingCalibCollab sub0 ([ev0] ++ evBad :: []) w0c
          = Except.error "No R1 data available" :=
  ⟨rfl, rfl,
   errors_propagate failingCalibCollab sub0 [ev0] evBad [] w0c w1c
     "No R1 data available" rfl rfl⟩
